import Mathlib

/-!
Verification of the InsightQA backend core against its specification.

The development shallowly embeds the Python source under `backend/`:
Python `str` values are modelled as `String` or `List Char`, raw bytes as
`List Nat`, dictionaries handed to the vector store as an explicit filter
datatype, and the model/vector-store boundary as explicit environment
records carrying the responses the external services would return.
While-loops are rendered as fuel-indexed structural recursions (the fuel is
always supplied by the caller as an explicit bound that provably suffices),
keeping every definition kernel-computable.
-/

namespace InsightQA

/-- `CHUNK_SIZE` constant of the ingestion chunker (`backend/app.py`, line 113). -/
def CHUNK_SIZE : Nat := 800

/-- `OVERLAP` constant of the ingestion chunker (`backend/app.py`, line 114). -/
def OVERLAP : Nat := 150

/-- The ingestion chunking while-loop of `backend/app.py` lines 115-118:
starting at `start_idx = 0`, emit the slice `text[start_idx : start_idx + CHUNK_SIZE]`
and advance `start_idx` by `CHUNK_SIZE - OVERLAP`, while `start_idx < len(text)`.
Python text is a list of characters here, and the slice
`text[s : s + CHUNK_SIZE]` is `(text.drop s).take CHUNK_SIZE` (Python slices clamp).
The loop advances by `CHUNK_SIZE - OVERLAP = 650 > 0` per iteration, so
`text.length + 1` iterations always suffice; the explicit `fuel` argument makes
that termination bound structural. -/
def chunkLoop (text : List Char) : Nat → Nat → List (List Char)
  | 0, _ => []
  | fuel + 1, start =>
    if start < text.length then
      (text.drop start).take CHUNK_SIZE ::
        chunkLoop text fuel (start + (CHUNK_SIZE - OVERLAP))
    else []

/-- The full chunk sequence the ingestion endpoint emits for one parsed file
(`backend/app.py` lines 115-120), i.e. the while-loop started at offset 0. -/
def ingestChunks (text : List Char) : List (List Char) :=
  chunkLoop text (text.length + 1) 0

theorem chunkLoop_of_not_lt (text : List Char) (fuel start : Nat)
    (h : ¬ start < text.length) : chunkLoop text fuel start = [] := by
  cases fuel <;> simp [chunkLoop, h]

theorem chunkLoop_closed (text : List Char) :
    ∀ fuel start, text.length ≤ start + fuel →
      chunkLoop text fuel start =
        (List.range ((text.length - start + 649) / 650)).map
          (fun k => (text.drop (start + 650 * k)).take 800) := by
  intro fuel
  induction fuel with
  | zero =>
    intro start h
    have hlt : ¬ start < text.length := by omega
    have hz : text.length - start = 0 := by omega
    rw [chunkLoop_of_not_lt text 0 start hlt]
    simp [hz]
  | succ fuel ih =>
    intro start h
    by_cases hs : start < text.length
    · have hstep : chunkLoop text (fuel + 1) start =
          (text.drop start).take 800 :: chunkLoop text fuel (start + 650) := by
        simp [chunkLoop, hs, CHUNK_SIZE, OVERLAP]
      rw [hstep, ih (start + 650) (by omega)]
      have hcount : (text.length - start + 649) / 650 =
          (text.length - (start + 650) + 649) / 650 + 1 := by omega
      rw [hcount, List.range_succ_eq_map, List.map_cons, List.map_map]
      congr 1
      apply List.map_congr_left
      intro k _
      have harg : start + 650 + 650 * k = start + 650 * (k + 1) := by ring
      simp [Function.comp, Nat.succ_eq_add_one, harg]
    · have hz : text.length - start = 0 := by omega
      rw [chunkLoop_of_not_lt text (fuel + 1) start hs]
      simp [hz]

theorem chunkLoop_drop_flatten (text : List Char) :
    ∀ fuel start, text.length ≤ start + fuel →
      ((chunkLoop text fuel start).map (fun c => c.drop 150)).flatten =
        text.drop (start + 150) := by
  intro fuel
  induction fuel with
  | zero =>
    intro start h
    rw [chunkLoop_of_not_lt text 0 start (by omega)]
    simp [List.drop_eq_nil_of_le (by omega : text.length ≤ start + 150)]
  | succ fuel ih =>
    intro start h
    by_cases hs : start < text.length
    · have hstep : chunkLoop text (fuel + 1) start =
          (text.drop start).take 800 :: chunkLoop text fuel (start + 650) := by
        simp [chunkLoop, hs, CHUNK_SIZE, OVERLAP]
      rw [hstep, List.map_cons, List.flatten_cons, ih (start + 650) (by omega)]
      have h1 : ((text.drop start).take 800).drop 150 =
          ((text.drop start).drop 150).take 650 := by
        rw [List.drop_take]
      have h2 : (text.drop start).drop 150 = text.drop (start + 150) := by
        rw [List.drop_drop]
      have h3 : text.drop (start + 650 + 150) = (text.drop (start + 150)).drop 650 := by
        rw [List.drop_drop]
      rw [h1, h2, h3, List.take_append_drop]
    · rw [chunkLoop_of_not_lt text (fuel + 1) start hs]
      simp [List.drop_eq_nil_of_le (by omega : text.length ≤ start + 150)]

/-- C1 (amended): the chunker with window 800 and overlap 150 emits, in order,
the slices `T[650*k : 650*k + 800]` for `k = 0, 1, ...` while `650*k < len(T)`;
an empty `T` yields zero chunks; a nonempty `T` with `len(T) ≤ 650` yields
exactly one chunk equal to `T`; concatenating consecutive chunks with the
150-character overlap removed reconstructs `T`; and the number of chunks is
`ceil(len(T) / 650)` (not `ceil(max(0, len(T) - 150) / 650)`, and texts with
`650 < len(T) ≤ 800` yield two chunks, not one). -/
theorem C1_chunker_amended (T : List Char) :
    ingestChunks T =
      (List.range ((T.length + 649) / 650)).map
        (fun k => (T.drop (650 * k)).take 800)
    ∧ (ingestChunks T).length = (T.length + 649) / 650
    ∧ (T = [] → ingestChunks T = [])
    ∧ (T ≠ [] → T.length ≤ 650 → ingestChunks T = [T])
    ∧ (∀ c cs, ingestChunks T = c :: cs →
        c ++ (cs.map (fun d => d.drop 150)).flatten = T) := by
  have hclosed : ingestChunks T =
      (List.range ((T.length + 649) / 650)).map
        (fun k => (T.drop (650 * k)).take 800) := by
    rw [ingestChunks, chunkLoop_closed T (T.length + 1) 0 (by omega)]
    simp
  refine ⟨hclosed, ?_, ?_, ?_, ?_⟩
  · rw [hclosed]
    simp
  · intro hT
    subst hT
    rfl
  · intro hne hle
    have hpos : 0 < T.length := List.length_pos.mpr hne
    have hcount : (T.length + 649) / 650 = 1 := by omega
    have hr1 : List.range 1 = [0] := rfl
    rw [hclosed, hcount, hr1, List.map_singleton]
    have htake : T.take 800 = T := List.take_of_length_le (by omega)
    simp [htake]
  · intro c cs hcons
    have hne : T ≠ [] := by
      intro hT
      subst hT
      simp [ingestChunks, chunkLoop] at hcons
    have hpos : 0 < T.length := List.length_pos.mpr hne
    have hstep : ingestChunks T = T.take 800 :: chunkLoop T T.length 650 := by
      simp [ingestChunks, chunkLoop, hpos, CHUNK_SIZE, OVERLAP]
    rw [hstep] at hcons
    injection hcons with hc hcs
    subst hc
    subst hcs
    rw [chunkLoop_drop_flatten T T.length 650 (by omega)]
    have h800 : 650 + 150 = 800 := by norm_num
    rw [h800, List.take_append_drop]

set_option maxRecDepth 10000 in
/-- C1 counterexample: a 700-character text has length at most 800 but the
chunker emits two chunks (offsets 0 and 650), not one chunk equal to the text,
and the claimed count formula `ceil(max(0, len - 150) / 650)` evaluates to 1,
not the actual 2. -/
theorem C1_counterexample :
    (List.replicate 700 'a').length ≤ 800
    ∧ (ingestChunks (List.replicate 700 'a')).length = 2
    ∧ ingestChunks (List.replicate 700 'a') ≠ [List.replicate 700 'a']
    ∧ ((List.replicate 700 'a').length - 150 + 649) / 650 = 1 := by
  have hlen : (ingestChunks (List.replicate 700 'a')).length = 2 := by
    rw [ingestChunks, chunkLoop_closed _ _ _ (by omega)]
    simp
  refine ⟨by simp, hlen, ?_, by simp⟩
  intro heq
  rw [heq] at hlen
  simp at hlen

/-- Witness for `C1_chunker_amended` at a concrete text of length 3. -/
theorem C1_chunker_amended_witness :
    ingestChunks (List.replicate 3 'x') = [List.replicate 3 'x'] :=
  (C1_chunker_amended (List.replicate 3 'x')).2.2.2.1 (by decide) (by decide)

/-- Metadata dictionary attached to each indexed chunk
(`backend/app.py` lines 121-128). -/
structure ChunkMeta where
  source_document : String
  chunk_index : Nat
  kb_id : String
  doc_role : String
deriving DecidableEq

/-- The `Document` row created for each uploaded file (`backend/app.py`
lines 95-103); only the fields the claims are about are carried (`path` and
`mime_type` are derived data no claim touches). -/
structure DocRow where
  kb_id : String
  filename : String
  role : String
  is_html : Bool
  is_primary_html : Bool
deriving DecidableEq

/-- One uploaded file as the ingestion loop sees it: its `filename` and the
parsed text returned by `parsers.parse_any` (`backend/app.py` lines 80-110).
The chunking/metadata claims quantify over the parsed text. -/
structure IngestFile where
  filename : String
  text : List Char

/-- Python `str.lower` restricted to ASCII, which is all the suffix comparison
in the source consumes (it compares against `".html"`/`".htm"` etc.). -/
def lowerAscii (s : String) : String :=
  String.mk (s.toList.map Char.toLower)

/-- Index of the last occurrence of `c` (Python `str.rfind`, as used by
`pathlib`), or `none` when absent. -/
def rfindChar (c : Char) : List Char → Option Nat
  | [] => none
  | x :: xs =>
    match rfindChar c xs with
    | some i => some (i + 1)
    | none => if x = c then some 0 else none

/-- The final path component, as `pathlib.PurePath.name` produces for the
POSIX-style filenames the upload carries. -/
def pathName (s : List Char) : List Char :=
  match rfindChar '/' s with
  | some i => s.drop (i + 1)
  | none => s

/-- `pathlib.Path(filename).suffix`: `name[i:]` for the last dot index `i`
when `0 < i < len(name) - 1`, else the empty string. -/
def pathSuffix (filename : String) : String :=
  let name := pathName filename.toList
  match rfindChar '.' name with
  | some i => if 0 < i ∧ i < name.length - 1 then String.mk (name.drop i) else ""
  | none => ""

/-- `suffix = Path(filename).suffix.lower()` (`backend/app.py` line 83,
`backend/parsers.py` line 68). -/
def suffixLower (filename : String) : String :=
  lowerAscii (pathSuffix filename)

/-- `is_html = suffix in [".html", ".htm"]` (`backend/app.py` line 86). -/
def isHtmlSuffix (filename : String) : Bool :=
  suffixLower filename == ".html" || suffixLower filename == ".htm"

/-- The per-file chunking while-loop of the ingestion endpoint
(`backend/app.py` lines 115-129), acting on the accumulated call-wide
`docs_chunks`/`docs_meta` lists: each iteration appends the slice to
`docs_chunks` and a metadata record whose `chunk_index` is
`len(docs_chunks) - 1`, i.e. the running length of the call-wide chunk list.
Fuel as in `chunkLoop`. -/
def ingestFileLoop (kb role filename : String) (text : List Char) :
    Nat → Nat → List (List Char) × List ChunkMeta →
      List (List Char) × List ChunkMeta
  | 0, _, st => st
  | fuel + 1, start, (chunks, metas) =>
    if start < text.length then
      let chunk := (text.drop start).take CHUNK_SIZE
      let chunks' := chunks ++ [chunk]
      let metas' := metas ++ [⟨filename, chunks'.length - 1, kb, role⟩]
      ingestFileLoop kb role filename text fuel
        (start + (CHUNK_SIZE - OVERLAP)) (chunks', metas')
    else (chunks, metas)

/-- The per-file body of the ingestion `for` loop (`backend/app.py`
lines 80-139): compute the suffix-based role from the `primary_html_set`
flag, append the `Document` row, set the flag if this file became primary,
and run the chunking loop on the call-wide accumulators. -/
def ingestFiles (kb : String) :
    List IngestFile → Bool → List (List Char) × List ChunkMeta × List DocRow →
      List (List Char) × List ChunkMeta × List DocRow
  | [], _, st => st
  | f :: rest, primary_html_set, (chunks, metas, rows) =>
    let is_html := isHtmlSuffix f.filename
    let role := if is_html && !primary_html_set then "main" else "support"
    let is_primary_html := is_html && !primary_html_set
    let rows' := rows ++ [⟨kb, f.filename, role, is_html, is_primary_html⟩]
    let primary_set' := primary_html_set || is_primary_html
    let st' := ingestFileLoop kb role f.filename f.text (f.text.length + 1) 0
      (chunks, metas)
    ingestFiles kb rest primary_set' (st'.1, st'.2, rows')

/-- The ingestion endpoint's accumulation over all uploaded files
(`backend/app.py` lines 70-141): the call-wide chunk texts, chunk metadata
and document rows, starting from empty accumulators and
`primary_html_set = False`. -/
def ingest (kb : String) (files : List IngestFile) :
    List (List Char) × List ChunkMeta × List DocRow :=
  ingestFiles kb files false ([], [], [])

theorem ingestFileLoop_indices (kb role filename : String) (text : List Char) :
    ∀ fuel start chunks metas,
      metas.map (fun m => m.chunk_index) = List.range chunks.length →
      ((ingestFileLoop kb role filename text fuel start (chunks, metas)).2).map
          (fun m => m.chunk_index) =
        List.range
          ((ingestFileLoop kb role filename text fuel start (chunks, metas)).1).length := by
  intro fuel
  induction fuel with
  | zero =>
    intro start chunks metas h
    simpa [ingestFileLoop] using h
  | succ fuel ih =>
    intro start chunks metas h
    by_cases hs : start < text.length
    · have hstep : ingestFileLoop kb role filename text (fuel + 1) start (chunks, metas) =
          ingestFileLoop kb role filename text fuel (start + (CHUNK_SIZE - OVERLAP))
            (chunks ++ [(text.drop start).take CHUNK_SIZE],
             metas ++ [⟨filename, (chunks ++ [(text.drop start).take CHUNK_SIZE]).length - 1,
                        kb, role⟩]) := by
        simp [ingestFileLoop, hs]
      rw [hstep]
      apply ih
      simp [h, List.range_succ]
    · simpa [ingestFileLoop, hs] using h

theorem ingestFiles_indices (kb : String) :
    ∀ files pset chunks metas rows,
      metas.map (fun m => m.chunk_index) = List.range chunks.length →
      ((ingestFiles kb files pset (chunks, metas, rows)).2.1).map
          (fun m => m.chunk_index) =
        List.range ((ingestFiles kb files pset (chunks, metas, rows)).1).length := by
  intro files
  induction files with
  | nil =>
    intro pset chunks metas rows h
    simpa [ingestFiles] using h
  | cons f rest ih =>
    intro pset chunks metas rows h
    rw [ingestFiles]
    apply ih
    exact ingestFileLoop_indices _ _ _ _ _ _ _ _ h

/-- C2 (amended): within one ingestion call, the `chunk_index` values recorded
in the vector-index metadata are the call-wide running index: across the whole
call they are exactly `0..N-1` in emission order (`N` the total number of
chunks), with no gaps or repeats; consequently the indices of one file's
chunks are consecutive, but they start at the number of chunks emitted for the
files uploaded before it, not at 0. -/
theorem C2_chunk_index_amended (kb : String) (files : List IngestFile) :
    ((ingest kb files).2.1).map (fun m => m.chunk_index) =
      List.range ((ingest kb files).1).length :=
  ingestFiles_indices kb files false [] [] [] rfl

/-- C2 counterexample: ingesting two files of one chunk each records
`chunk_index = 1` for the second file's only chunk, whereas the claim requires
every file's indices to start at 0. -/
theorem C2_counterexample :
    ((ingest "kb" [⟨"a.txt", ['x']⟩, ⟨"b.txt", ['y']⟩]).2.1).map
        (fun m => (m.source_document, m.chunk_index)) =
      [("a.txt", 0), ("b.txt", 1)] := by
  rfl

/-- Proof-side helper: the `Document` rows `ingestFiles` appends for `files`
when the incoming `primary_html_set` flag is `pset`. -/
def rowsFrom (kb : String) : Bool → List IngestFile → List DocRow
  | _, [] => []
  | pset, f :: rest =>
    let is_html := isHtmlSuffix f.filename
    let is_primary := is_html && !pset
    ⟨kb, f.filename, if is_primary then "main" else "support", is_html, is_primary⟩ ::
      rowsFrom kb (pset || is_primary) rest

/-- Out-of-range default used to state indexed properties of the row list. -/
def defaultDocRow : DocRow := ⟨"", "", "", false, false⟩

/-- Out-of-range default used to state indexed properties of the file list. -/
def defaultIngestFile : IngestFile := ⟨"", []⟩

def rowAt (rows : List DocRow) (i : Nat) : DocRow :=
  rows.getD i defaultDocRow

def fileAt (files : List IngestFile) (i : Nat) : IngestFile :=
  files.getD i defaultIngestFile

theorem ingestFiles_rows (kb : String) :
    ∀ files pset chunks metas rows,
      (ingestFiles kb files pset (chunks, metas, rows)).2.2 =
        rows ++ rowsFrom kb pset files := by
  intro files
  induction files with
  | nil =>
    intro pset chunks metas rows
    simp [ingestFiles, rowsFrom]
  | cons f rest ih =>
    intro pset chunks metas rows
    rw [ingestFiles, rowsFrom]
    rw [ih]
    simp

theorem rowsFrom_length (kb : String) :
    ∀ files pset, (rowsFrom kb pset files).length = files.length := by
  intro files
  induction files with
  | nil => intro pset; rfl
  | cons f rest ih => intro pset; simp [rowsFrom, ih]

theorem pset_or_primary_false (pset h : Bool) :
    (pset || (h && !pset)) = false ↔ (pset = false ∧ h = false) := by
  cases pset <;> cases h <;> simp

theorem rowAt_cons_zero (r : DocRow) (rows : List DocRow) :
    rowAt (r :: rows) 0 = r := rfl

theorem rowAt_cons_succ (r : DocRow) (rows : List DocRow) (i : Nat) :
    rowAt (r :: rows) (i + 1) = rowAt rows i := rfl

theorem fileAt_cons_zero (f : IngestFile) (files : List IngestFile) :
    fileAt (f :: files) 0 = f := rfl

theorem fileAt_cons_succ (f : IngestFile) (files : List IngestFile) (i : Nat) :
    fileAt (f :: files) (i + 1) = fileAt files i := rfl

theorem rowsFrom_spec (kb : String) :
    ∀ files pset i, i < files.length →
      (rowAt (rowsFrom kb pset files) i).kb_id = kb
      ∧ (rowAt (rowsFrom kb pset files) i).filename = (fileAt files i).filename
      ∧ (rowAt (rowsFrom kb pset files) i).is_html =
          isHtmlSuffix (fileAt files i).filename
      ∧ ((rowAt (rowsFrom kb pset files) i).is_primary_html = true ↔
          (pset = false ∧ isHtmlSuffix (fileAt files i).filename = true
            ∧ ∀ j, j < i → isHtmlSuffix (fileAt files j).filename = false))
      ∧ ((rowAt (rowsFrom kb pset files) i).role = "main" ↔
          (rowAt (rowsFrom kb pset files) i).is_primary_html = true)
      ∧ ((rowAt (rowsFrom kb pset files) i).is_primary_html = false →
          (rowAt (rowsFrom kb pset files) i).role = "support") := by
  intro files
  induction files with
  | nil =>
    intro pset i hi
    simp at hi
  | cons f rest ih =>
    intro pset i hi
    cases i with
    | zero =>
      simp only [rowsFrom, rowAt_cons_zero, fileAt_cons_zero]
      refine ⟨trivial, trivial, trivial, ?_, ?_, ?_⟩
      · cases pset <;> cases hh : isHtmlSuffix f.filename <;> simp [hh]
      · by_cases hb : (isHtmlSuffix f.filename && !pset) = true
        · simp [hb]
        · simp [hb]
      · intro hfalse
        by_cases hb : (isHtmlSuffix f.filename && !pset) = true
        · simp [hb] at hfalse
        · simp [hb]
    | succ j =>
      have hj : j < rest.length := by simpa using hi
      have IH := ih (pset || (isHtmlSuffix f.filename && !pset)) j hj
      obtain ⟨h1, h2, h3, h4, h5, h6⟩ := IH
      simp only [rowsFrom, rowAt_cons_succ, fileAt_cons_succ]
      refine ⟨h1, h2, h3, ?_, h5, h6⟩
      rw [h4, pset_or_primary_false]
      constructor
      · rintro ⟨⟨hp, hf⟩, hhtml, hall⟩
        refine ⟨hp, hhtml, ?_⟩
        intro k hk
        cases k with
        | zero => simpa [fileAt] using hf
        | succ k2 =>
          have := hall k2 (by omega)
          simpa [fileAt] using this
      · rintro ⟨hp, hhtml, hall⟩
        refine ⟨⟨hp, ?_⟩, hhtml, ?_⟩
        · have := hall 0 (by omega)
          simpa [fileAt] using this
        · intro k hk
          have := hall (k + 1) (by omega)
          simpa [fileAt] using this

/-- C6: within one ingestion call, exactly the first file (in upload order)
whose filename suffix is `.html` or `.htm` case-insensitively is marked
`is_primary_html = true`; a document's role is `"main"` iff it is that primary
HTML document; and every other uploaded document — HTML-suffixed or not —
receives role `"support"`. -/
theorem C6_first_html_is_primary (kb : String) (files : List IngestFile)
    (i : Nat) (hi : i < files.length) :
    ((ingest kb files).2.2).length = files.length
    ∧ (rowAt ((ingest kb files).2.2) i).is_html =
        isHtmlSuffix (fileAt files i).filename
    ∧ ((rowAt ((ingest kb files).2.2) i).is_primary_html = true ↔
        (isHtmlSuffix (fileAt files i).filename = true
          ∧ ∀ j, j < i → isHtmlSuffix (fileAt files j).filename = false))
    ∧ ((rowAt ((ingest kb files).2.2) i).role = "main" ↔
        (rowAt ((ingest kb files).2.2) i).is_primary_html = true)
    ∧ ((rowAt ((ingest kb files).2.2) i).is_primary_html = false →
        (rowAt ((ingest kb files).2.2) i).role = "support") := by
  have hrows : (ingest kb files).2.2 = rowsFrom kb false files := by
    rw [ingest, ingestFiles_rows]
    simp
  rw [hrows]
  obtain ⟨_, _, h3, h4, h5, h6⟩ := rowsFrom_spec kb files false i hi
  refine ⟨rowsFrom_length kb files false, h3, ?_, h5, h6⟩
  rw [h4]
  simp

/-- Witness for `C6_first_html_is_primary`: uploading a text file followed by
`Page.HTML` and `other.htm` marks exactly the second file primary. -/
theorem C6_first_html_is_primary_witness :
    (rowAt ((ingest "kb" [⟨"notes.txt", ['a']⟩, ⟨"Page.HTML", ['b']⟩,
        ⟨"other.htm", ['c']⟩]).2.2) 1).is_primary_html = true := by
  have h := C6_first_html_is_primary "kb"
    [⟨"notes.txt", ['a']⟩, ⟨"Page.HTML", ['b']⟩, ⟨"other.htm", ['c']⟩] 1 (by decide)
  refine h.2.2.1.mpr ⟨by decide, ?_⟩
  intro j hj
  have hj0 : j = 0 := by omega
  subst hj0
  decide

/-- The `where` filter expressions handed to the Chroma collection by
`backend/vectordb.py`: a field-equality dictionary, a single-key
`$or` dictionary, or a single-key `$and` dictionary. -/
inductive WhereFilter
  | eq (field : String) (val : String)
  | orF (clauses : List WhereFilter)
  | andF (clauses : List WhereFilter)

/-- Python truthiness of the optional `kb_id: str | None` parameter:
`None` and the empty string are falsy (`backend/vectordb.py` line 55). -/
def truthyStr : Option String → Bool
  | none => false
  | some s => !(s == "")

/-- Python truthiness of the optional `doc_roles: List[str] | None` parameter:
`None` and the empty list are falsy (`backend/vectordb.py` line 58). -/
def truthyRoles : Option (List String) → Bool
  | none => false
  | some l => !l.isEmpty

/-- The filter construction of `vectordb.query` (`backend/vectordb.py`
lines 51-71): build a clause list from the truthy parameters — an equality
clause for `kb_id`, and for `doc_roles` either a single equality clause (one
role) or a `$or` of equality clauses (several roles) — then a single clause
stands alone, several clauses are wrapped under one top-level `$and`, and an
empty clause list means no filter. -/
def buildWhere (kb_id : Option String) (doc_roles : Option (List String)) :
    Option WhereFilter :=
  let clauses₀ : List WhereFilter := []
  let clauses₁ :=
    if truthyStr kb_id then clauses₀ ++ [WhereFilter.eq "kb_id" (kb_id.getD "")]
    else clauses₀
  let clauses₂ :=
    if truthyRoles doc_roles then
      let roles := (doc_roles.getD [])
      if roles.length == 1 then
        clauses₁ ++ [WhereFilter.eq "doc_role" (roles.getD 0 "")]
      else
        clauses₁ ++ [WhereFilter.orF (roles.map (WhereFilter.eq "doc_role"))]
    else clauses₁
  match clauses₂ with
  | [c] => some c
  | [] => none
  | cs => some (WhereFilter.andF cs)

/-- A filter whose top level is a single combinator: either one equality
clause or exactly one `$and`/`$or` key (the shape Chroma's `where` accepts). -/
def topLevelSingle : Option WhereFilter → Prop
  | none => True
  | some (WhereFilter.eq _ _) => True
  | some (WhereFilter.orF _) => True
  | some (WhereFilter.andF _) => True

/-- C5: the retrieval filter handed to the vector store is: no filter when
neither constraint is truthy; a single equality clause when only one is (one
role gives a role-equality clause, several roles one `$or` of role-equality
clauses); and when both are given, one top-level `$and` wrapping the kb-id
equality clause and the role clause — so the top level always carries exactly
one combinator. -/
theorem C5_filter_builder :
    buildWhere none none = none
    ∧ (∀ k, k ≠ "" → buildWhere (some k) none = some (WhereFilter.eq "kb_id" k))
    ∧ (∀ r, buildWhere none (some [r]) = some (WhereFilter.eq "doc_role" r))
    ∧ (∀ r rs, rs ≠ [] → buildWhere none (some (r :: rs)) =
        some (WhereFilter.orF ((r :: rs).map (WhereFilter.eq "doc_role"))))
    ∧ (∀ k r, k ≠ "" → buildWhere (some k) (some [r]) =
        some (WhereFilter.andF [WhereFilter.eq "kb_id" k, WhereFilter.eq "doc_role" r]))
    ∧ (∀ k r rs, k ≠ "" → rs ≠ [] → buildWhere (some k) (some (r :: rs)) =
        some (WhereFilter.andF [WhereFilter.eq "kb_id" k,
          WhereFilter.orF ((r :: rs).map (WhereFilter.eq "doc_role"))]))
    ∧ (∀ k roles, topLevelSingle (buildWhere k roles)) := by
  refine ⟨rfl, ?_, ?_, ?_, ?_, ?_, ?_⟩
  · intro k hk
    have hkb : (k == "") = false := by
      simpa using hk
    simp [buildWhere, truthyStr, truthyRoles, hkb]
  · intro r
    simp [buildWhere, truthyStr, truthyRoles]
  · intro r rs hrs
    have hlen : ((r :: rs).length == 1) = false := by
      cases rs with
      | nil => exact absurd rfl hrs
      | cons b bs => simp
    simp [buildWhere, truthyStr, truthyRoles, hlen, hrs]
  · intro k r hk
    have hkb : (k == "") = false := by
      simpa using hk
    simp [buildWhere, truthyStr, truthyRoles, hkb]
  · intro k r rs hk hrs
    have hkb : (k == "") = false := by
      simpa using hk
    have hlen : ((r :: rs).length == 1) = false := by
      cases rs with
      | nil => exact absurd rfl hrs
      | cons b bs => simp
    simp [buildWhere, truthyStr, truthyRoles, hkb, hlen, hrs]
  · intro k roles
    cases hw : buildWhere k roles with
    | none => trivial
    | some w => cases w <;> trivial

/-- Witness for `C5_filter_builder` at concrete scope parameters. -/
theorem C5_filter_builder_witness :
    buildWhere (some "kb1") (some ["main", "support"]) =
      some (WhereFilter.andF [WhereFilter.eq "kb_id" "kb1",
        WhereFilter.orF [WhereFilter.eq "doc_role" "main",
          WhereFilter.eq "doc_role" "support"]]) := by
  have h := C5_filter_builder.2.2.2.2.2.1 "kb1" "main" ["support"]
    (by decide) (by decide)
  simpa using h

/-- C10: an empty-string knowledge-base id or an empty role list is falsy in
Python, so the query builds no clause for that constraint: with both empty the
query runs with no filter at all, and with one empty only the other
constraint's clause is passed. -/
theorem C10_empty_scope_no_filter :
    buildWhere (some "") none = none
    ∧ buildWhere none (some []) = none
    ∧ buildWhere (some "") (some []) = none
    ∧ buildWhere (some "") (some ["support"]) =
        some (WhereFilter.eq "doc_role" "support")
    ∧ buildWhere (some "kb1") (some []) = some (WhereFilter.eq "kb_id" "kb1") := by
  refine ⟨rfl, rfl, rfl, rfl, rfl⟩

/-- The backtick character, by code point (96). -/
def backtick : Char := Char.ofNat 96

/-- The opening brace character, by code point (123). -/
def lbrace : Char := Char.ofNat 123

/-- The closing brace character, by code point (125). -/
def rbrace : Char := Char.ofNat 125

/-- Python string whitespace: the characters `str.strip` removes and the
ASCII portion of the regex class `\s` (space, tab, LF, CR, VT, FF). -/
def isPyWs (c : Char) : Bool :=
  c = ' ' || c = '\t' || c = '\n' || c = '\r' || c = '\x0b' || c = '\x0c'

/-- Python `str.strip()` on a character list. -/
def pyStrip (s : List Char) : List Char :=
  ((s.dropWhile isPyWs).reverse.dropWhile isPyWs).reverse

/-- After the regex group `(\[.*?\])`, the pattern requires `\s*` and a
closing triple-backtick fence; `\s*` before a non-whitespace literal is
equivalent to skipping the whole whitespace run. -/
def fenceTail (s : List Char) : Bool :=
  (s.dropWhile isPyWs).take 3 == [backtick, backtick, backtick]

/-- Scan for the end of the minimal group `\[.*?\]`: under minimal matching
the group ends at the first `]` whose remainder, after whitespace, starts
with the closing fence. `acc` carries the group content scanned so far. -/
def fenceGroupScan (acc : List Char) : List Char → Option (List Char)
  | [] => none
  | c :: rest =>
    if c = ']' && fenceTail rest then some (acc ++ [c])
    else fenceGroupScan (acc ++ [c]) rest

/-- Attempt the fence regex ```` ```(?:json)?\s*(\[.*?\])\s*``` ```` at the
head of `s` (with `re.DOTALL`), returning group 1 on success. The optional
`(?:json)?` is tried greedily first and dropped on failure, exactly as the
backtracking engine does. -/
def fenceMatchAt (s : List Char) : Option (List Char) :=
  if s.take 3 = [backtick, backtick, backtick] then
    let afterTicks := s.drop 3
    let tryBody := fun (t : List Char) =>
      match t.dropWhile isPyWs with
      | '[' :: rest => fenceGroupScan ['['] rest
      | _ => none
    match (if afterTicks.take 4 = ['j', 's', 'o', 'n'] then
        tryBody (afterTicks.drop 4) else none) with
    | some g => some g
    | none => tryBody afterTicks
  else none

/-- `re.search` of the fence pattern: leftmost match wins. -/
def reSearchFence : List Char → Option (List Char)
  | [] => none
  | c :: rest =>
    match fenceMatchAt (c :: rest) with
    | some g => some g
    | none => reSearchFence rest

/-- Python `str.find`: index of the first occurrence, `none` for Python's -1. -/
def findIdx (c : Char) : List Char → Option Nat
  | [] => none
  | x :: xs => if x = c then some 0 else (findIdx c xs).map (· + 1)

/-- One `re.sub(r",\s*C", "C", s)` pass for a closing character `C`
(`backend/rag_agent.py` lines 80-81): scan left to right; at a comma whose
following whitespace run ends in `C`, emit `C` and continue scanning after
the replaced span. Fuel: every step consumes at least one input character,
so `length + 1` suffices. -/
def subCommaClose (close : Char) : Nat → List Char → List Char
  | 0, _ => []
  | _fuel + 1, [] => []
  | fuel + 1, c :: rest =>
    if c = ',' then
      match rest.dropWhile isPyWs with
      | d :: rest2 =>
        if d = close then close :: subCommaClose close fuel rest2
        else c :: subCommaClose close fuel rest
      | [] => c :: subCommaClose close fuel rest
    else c :: subCommaClose close fuel rest

/-- The two trailing-comma removals of `_clean_and_parse_json`
(`backend/rag_agent.py` lines 79-81). -/
def removeTrailingCommas (s : List Char) : List Char :=
  let s1 := subCommaClose ']' (s.length + 1) s
  subCommaClose rbrace (s1.length + 1) s1

/-- Python `str.replace(old, new)`: all non-overlapping occurrences, left to
right. `old` is nonempty at every call site, so each step consumes at least
one character and `length + 1` fuel suffices. -/
def replaceAux (old new : List Char) : Nat → List Char → List Char
  | 0, _ => []
  | _fuel + 1, [] => []
  | fuel + 1, c :: rest =>
    if old.isPrefixOf (c :: rest) then
      new ++ replaceAux old new fuel ((c :: rest).drop old.length)
    else c :: replaceAux old new fuel rest

def strReplace (s old new : List Char) : List Char :=
  replaceAux old new (s.length + 1) s

/-- Python values as produced by `json.loads` and `ast.literal_eval`
(`None`/bool/int/str/list/dict); numeric literals with a fractional or
exponent part are kept as their lexeme (`floatLit`) — no claim under
verification depends on float arithmetic or formatting. -/
inductive PyVal
  | none
  | bool (b : Bool)
  | int (n : Int)
  | floatLit (lexeme : String)
  | str (s : String)
  | list (xs : List PyVal)
  | dict (kvs : List (PyVal × PyVal))

/-- JSON whitespace (RFC 8259): space, tab, LF, CR. -/
def isJsonWs (c : Char) : Bool :=
  c = ' ' || c = '\t' || c = '\n' || c = '\r'

def isDigitChar (c : Char) : Bool := '0' ≤ c && c ≤ '9'

def digitsToNat (ds : List Char) : Nat :=
  ds.foldl (fun a c => 10 * a + (c.toNat - 48)) 0

def hexVal (c : Char) : Option Nat :=
  if '0' ≤ c && c ≤ '9' then some (c.toNat - 48)
  else if 'a' ≤ c && c ≤ 'f' then some (c.toNat - 87)
  else if 'A' ≤ c && c ≤ 'F' then some (c.toNat - 55)
  else none

/-- Strict JSON string body (after the opening quote), as `json.loads`
accepts it: standard escapes, `\uXXXX` (a lone escape is converted by
`Char.ofNat`; surrogate-pair recombination is not modelled — no claim
exercises astral characters), and no unescaped control characters. -/
def parseJsonString : Nat → List Char → Option (List Char × List Char)
  | 0, _ => none
  | _fuel + 1, [] => none
  | fuel + 1, c :: rest =>
    if c = '"' then some ([], rest)
    else if c = '\\' then
      match rest with
      | [] => none
      | e :: rest2 =>
        if e = '"' || e = '\\' || e = '/' then
          (parseJsonString fuel rest2).map (fun p => (e :: p.1, p.2))
        else if e = 'n' then
          (parseJsonString fuel rest2).map (fun p => ('\n' :: p.1, p.2))
        else if e = 't' then
          (parseJsonString fuel rest2).map (fun p => ('\t' :: p.1, p.2))
        else if e = 'r' then
          (parseJsonString fuel rest2).map (fun p => ('\r' :: p.1, p.2))
        else if e = 'b' then
          (parseJsonString fuel rest2).map (fun p => ('\x08' :: p.1, p.2))
        else if e = 'f' then
          (parseJsonString fuel rest2).map (fun p => ('\x0c' :: p.1, p.2))
        else if e = 'u' then
          match rest2 with
          | h1 :: h2 :: h3 :: h4 :: rest3 =>
            match hexVal h1, hexVal h2, hexVal h3, hexVal h4 with
            | some a, some b, some g, some d =>
              (parseJsonString fuel rest3).map
                (fun p => (Char.ofNat (((a * 16 + b) * 16 + g) * 16 + d) :: p.1, p.2))
            | _, _, _, _ => none
          | _ => none
        else none
      else if c.toNat < 32 then none
      else (parseJsonString fuel rest).map (fun p => (c :: p.1, p.2))

/-- Strict JSON number (RFC 8259): optional minus, integer part without
leading zeros, optional fraction and exponent; an integer-valued lexeme
becomes `PyVal.int`, anything else keeps its lexeme as `floatLit`. -/
def parseJsonNumber (s : List Char) : Option (PyVal × List Char) :=
  let (sign, s1) := match s with
    | '-' :: r => (true, r)
    | _ => (false, s)
  let intPart := s1.takeWhile isDigitChar
  let s2 := s1.drop intPart.length
  if intPart.isEmpty then none
  else if intPart.length > 1 && intPart.headD '0' = '0' then none
  else
    let (fracPart, s3) := match s2 with
      | '.' :: r =>
        let ds := r.takeWhile isDigitChar
        if ds.isEmpty then ([], s2) else ('.' :: ds, r.drop ds.length)
      | _ => ([], s2)
    let (expPart, s4) := match s3 with
      | e :: r =>
        if e = 'e' || e = 'E' then
          match r with
          | sg :: r2 =>
            if sg = '+' || sg = '-' then
              let ds := r2.takeWhile isDigitChar
              if ds.isEmpty then ([], s3) else (e :: sg :: ds, r2.drop ds.length)
            else
              let ds := r.takeWhile isDigitChar
              if ds.isEmpty then ([], s3) else (e :: ds, r.drop ds.length)
          | [] => ([], s3)
        else ([], s3)
      | [] => ([], s3)
    if fracPart.isEmpty && expPart.isEmpty then
      let n : Int := Int.ofNat (digitsToNat intPart)
      some (PyVal.int (if sign then -n else n), s2)
    else
      let lexeme := (if sign then ['-'] else []) ++ intPart ++ fracPart ++ expPart
      some (PyVal.floatLit (String.mk lexeme), s4)

mutual

/-- Strict JSON value parser modelling `json.loads` (RFC 8259): skip
whitespace, then dispatch on the first character. Fuel bounds the call-chain
depth; each nested call follows the consumption of at least one character,
so the caller-supplied `2 * length + 2` always suffices. -/
def parseJsonValue : Nat → List Char → Option (PyVal × List Char)
  | 0, _ => none
  | fuel + 1, s =>
    match s.dropWhile isJsonWs with
    | [] => none
    | c :: rest =>
      if c = '[' then
        match rest.dropWhile isJsonWs with
        | d :: r2 =>
          if d = ']' then some (PyVal.list [], r2)
          else
            match parseJsonArrayItems fuel rest with
            | some (vs, r) => some (PyVal.list vs, r)
            | none => none
        | [] => none
      else if c = lbrace then
        match rest.dropWhile isJsonWs with
        | d :: r2 =>
          if d = rbrace then some (PyVal.dict [], r2)
          else
            match parseJsonObjectItems fuel rest with
            | some (kvs, r) => some (PyVal.dict kvs, r)
            | none => none
        | [] => none
      else if c = '"' then
        (parseJsonString (rest.length + 1) rest).map
          (fun p => (PyVal.str (String.mk p.1), p.2))
      else if c = 't' && rest.take 3 = ['r', 'u', 'e'] then
        some (PyVal.bool true, rest.drop 3)
      else if c = 'f' && rest.take 4 = ['a', 'l', 's', 'e'] then
        some (PyVal.bool false, rest.drop 4)
      else if c = 'n' && rest.take 3 = ['u', 'l', 'l'] then
        some (PyVal.none, rest.drop 3)
      else parseJsonNumber (c :: rest)

/-- Comma-separated strict JSON array items up to the closing `]`
(no trailing comma — strict mode). -/
def parseJsonArrayItems : Nat → List Char → Option (List PyVal × List Char)
  | 0, _ => none
  | fuel + 1, s =>
    match parseJsonValue fuel s with
    | none => none
    | some (v, r) =>
      match r.dropWhile isJsonWs with
      | ',' :: r2 =>
        match parseJsonArrayItems fuel r2 with
        | some (vs, r3) => some (v :: vs, r3)
        | none => none
      | ']' :: r2 => some ([v], r2)
      | _ => none

/-- Comma-separated strict JSON object members up to the closing brace
(string keys only, no trailing comma — strict mode). -/
def parseJsonObjectItems : Nat → List Char → Option (List (PyVal × PyVal) × List Char)
  | 0, _ => none
  | fuel + 1, s =>
    match s.dropWhile isJsonWs with
    | '"' :: r =>
      match parseJsonString (r.length + 1) r with
      | none => none
      | some (k, r2) =>
        match r2.dropWhile isJsonWs with
        | ':' :: r3 =>
          match parseJsonValue fuel r3 with
          | none => none
          | some (v, r4) =>
            match r4.dropWhile isJsonWs with
            | ',' :: r5 =>
              match parseJsonObjectItems fuel r5 with
              | some (kvs, r6) => some ((PyVal.str (String.mk k), v) :: kvs, r6)
              | none => none
            | d :: r5 =>
              if d = rbrace then some ([(PyVal.str (String.mk k), v)], r5)
              else none
            | [] => none
        | _ => none
    | _ => none

end

/-- `json.loads`: parse one strict JSON value and require only whitespace
after it. -/
def jsonLoads (s : List Char) : Except String PyVal :=
  match parseJsonValue (2 * s.length + 2) s with
  | some (v, r) =>
    if (r.dropWhile isJsonWs).isEmpty then Except.ok v
    else Except.error "Extra data"
  | none => Except.error "Expecting value"

/-- Python string-literal body after an opening quote `q`, as
`ast.literal_eval` accepts it: the common escapes; an unrecognized escape
keeps the backslash and the character (CPython behaviour). -/
def parsePyString (q : Char) : Nat → List Char → Option (List Char × List Char)
  | 0, _ => none
  | _fuel + 1, [] => none
  | fuel + 1, c :: rest =>
    if c = q then some ([], rest)
    else if c = '\\' then
      match rest with
      | [] => none
      | e :: rest2 =>
        if e = '\\' || e = '\'' || e = '"' then
          (parsePyString q fuel rest2).map (fun p => (e :: p.1, p.2))
        else if e = 'n' then
          (parsePyString q fuel rest2).map (fun p => ('\n' :: p.1, p.2))
        else if e = 't' then
          (parsePyString q fuel rest2).map (fun p => ('\t' :: p.1, p.2))
        else if e = 'r' then
          (parsePyString q fuel rest2).map (fun p => ('\r' :: p.1, p.2))
        else
          (parsePyString q fuel rest2).map (fun p => ('\\' :: e :: p.1, p.2))
    else (parsePyString q fuel rest).map (fun p => (c :: p.1, p.2))

mutual

/-- `ast.literal_eval`'s value grammar for the repertoire the repair path can
meet: `None`/`True`/`False`, numbers with an optional single unary sign,
single- or double-quoted strings, lists and dicts with optional trailing
commas. Tuples, sets, bytes, complex literals and nested unary signs are
outside the model (no claim exercises them). Fuel as in `parseJsonValue`. -/
def parsePyValue : Nat → List Char → Option (PyVal × List Char)
  | 0, _ => none
  | fuel + 1, s =>
    match s.dropWhile isPyWs with
    | [] => none
    | c :: rest =>
      if c = '[' then
        match parsePyListItems fuel rest with
        | some (vs, r) => some (PyVal.list vs, r)
        | none => none
      else if c = lbrace then
        match parsePyDictItems fuel rest with
        | some (kvs, r) => some (PyVal.dict kvs, r)
        | none => none
      else if c = '\'' || c = '"' then
        (parsePyString c (rest.length + 1) rest).map
          (fun p => (PyVal.str (String.mk p.1), p.2))
      else if c = 'N' && rest.take 3 = ['o', 'n', 'e'] then
        some (PyVal.none, rest.drop 3)
      else if c = 'T' && rest.take 3 = ['r', 'u', 'e'] then
        some (PyVal.bool true, rest.drop 3)
      else if c = 'F' && rest.take 4 = ['a', 'l', 's', 'e'] then
        some (PyVal.bool false, rest.drop 4)
      else if c = '+' then parseJsonNumber rest
      else parseJsonNumber (c :: rest)

/-- Python list items after `[`: elements separated by commas, optional
trailing comma, closed by `]`. -/
def parsePyListItems : Nat → List Char → Option (List PyVal × List Char)
  | 0, _ => none
  | fuel + 1, s =>
    match s.dropWhile isPyWs with
    | ']' :: r => some ([], r)
    | _ =>
      match parsePyValue fuel s with
      | none => none
      | some (v, r) =>
        match r.dropWhile isPyWs with
        | ',' :: r2 =>
          match parsePyListItems fuel r2 with
          | some (vs, r3) => some (v :: vs, r3)
          | none => none
        | ']' :: r2 => some ([v], r2)
        | _ => none

/-- Python dict members after the opening brace: `key : value` pairs
separated by commas, optional trailing comma, closed by the closing brace. -/
def parsePyDictItems : Nat → List Char → Option (List (PyVal × PyVal) × List Char)
  | 0, _ => none
  | fuel + 1, s =>
    match s.dropWhile isPyWs with
    | [] => none
    | d :: _ =>
      if d = rbrace then some ([], (s.dropWhile isPyWs).drop 1)
      else
        match parsePyValue fuel s with
        | none => none
        | some (k, r1) =>
          match r1.dropWhile isPyWs with
          | ':' :: r2 =>
            match parsePyValue fuel r2 with
            | none => none
            | some (v, r3) =>
              match r3.dropWhile isPyWs with
              | ',' :: r4 =>
                match parsePyDictItems fuel r4 with
                | some (kvs, r5) => some ((k, v) :: kvs, r5)
                | none => none
              | e :: r4 => if e = rbrace then some ([(k, v)], r4) else none
              | [] => none
          | _ => none

end

/-- `ast.literal_eval`: parse one Python literal and require only whitespace
after it. -/
def literalEval (s : List Char) : Option PyVal :=
  match parsePyValue (2 * s.length + 2) s with
  | some (v, r) => if (r.dropWhile isPyWs).isEmpty then some v else none
  | none => none

/-- `_clean_and_parse_json` (`backend/rag_agent.py` lines 60-99): strip the
text; replace it by the (stripped) fenced group when the fence regex matches;
locate the payload by the first `[` and the last `]` (a missing bracket
raises `ValueError("No JSON array found.")`, modelled as `Except.error`);
remove trailing commas before `]` and the closing brace; try strict
`json.loads`; on failure replace `null`/`true`/`false` by their Python
spellings and try `ast.literal_eval`; error out if that also fails. -/
def cleanAndParseJson (text : String) : Except String PyVal :=
  let raw := pyStrip text.toList
  let raw :=
    match reSearchFence raw with
    | some g => pyStrip g
    | none => raw
  match findIdx '[' raw, rfindChar ']' raw with
  | some s, some e =>
    let json_candidate := (raw.drop s).take (e + 1 - s)
    let json_candidate := removeTrailingCommas json_candidate
    match jsonLoads json_candidate with
    | Except.ok v => Except.ok v
    | Except.error _ =>
      let py_friendly :=
        strReplace (strReplace (strReplace json_candidate
          "null".toList "None".toList) "true".toList "True".toList)
          "false".toList "False".toList
      match literalEval py_friendly with
      | some v => Except.ok v
      | none =>
        Except.error ("JSON remained invalid. Candidate: " ++ String.mk json_candidate)
  | _, _ => Except.error "No JSON array found."

set_option maxRecDepth 40000 in
/-- C3: the JSON-extraction helper tolerates surrounding code fences,
leading/trailing prose (locating the payload by the first `[` and last `]`)
and trailing commas before closing brackets/braces, and when strict JSON
parsing still fails it falls back to a permissive literal parse treating
`null`/`true`/`false` case-appropriately; in particular the spec's example
input parses to `[{"a": 1}]`. -/
theorem C3_json_extraction :
    cleanAndParseJson "Here you go:\n```json\n[\x7b\"a\":1\x7d,]\n```" =
      Except.ok (PyVal.list [PyVal.dict [(PyVal.str "a", PyVal.int 1)]])
    ∧ cleanAndParseJson "Sure! The cases: [1, 2,] - hope that helps." =
      Except.ok (PyVal.list [PyVal.int 1, PyVal.int 2])
    ∧ cleanAndParseJson "[null, true, false]" =
      Except.ok (PyVal.list [PyVal.none, PyVal.bool true, PyVal.bool false])
    ∧ cleanAndParseJson "[None, True]" =
      Except.ok (PyVal.list [PyVal.none, PyVal.bool true])
    ∧ cleanAndParseJson "no array here" = Except.error "No JSON array found." :=
  ⟨rfl, rfl, rfl, rfl, rfl⟩

/-- The external calls the generation flows make, in order: the embedding
computation and vector-store query performed inside `vectordb.query`, and the
model chat calls (`chatGenerate`: the test-case prompt, `chatRepair`: the
JSON repair prompt, `chatScript`: the Selenium prompt, `chatScriptRepair`:
the code repair prompt). -/
inductive ExtCall
  | embedText (q : String)
  | vectorQuery (top_k : Nat) (whereF : Option WhereFilter)
  | chatGenerate
  | chatRepair
  | chatScript
  | chatScriptRepair

/-- The Python exceptions the claims need to observe escaping a boundary. -/
inductive PyExn
  | nameError (name : String)
deriving DecidableEq

/-- The dictionary `generate_testcases_rag` returns, by branch
(`backend/rag_agent.py` lines 165-215): the step-3 `LLMError` dictionary, the
direct-parse success dictionary, the repaired-success dictionary (which also
carries `repaired_output`), and the double-failure dictionary of lines
207-215 (kept in the model for completeness; the code never reaches it, see
`generate_testcases_rag`). Fields no claim bears on (`retrieved_chunks`,
`prompt_used`, `model`, `kb_id`) are omitted. -/
inductive RagOutcome
  | llmError (error : String)
  | success (testcases : PyVal) (raw_llm_output : String)
  | repairedSuccess (testcases : PyVal) (raw_llm_output repaired_output : String)
  | parseFailure (error : String) (raw_llm_output : String)

/-- Environment abstracting the model provider for one test-case generation
request: the generation chat outcome and the repair chat outcome
(`Except.error` models a raised `LLMError` carrying its message). -/
structure RagEnv where
  genResp : Except String String
  repairResp : Except String String

/-- `generate_testcases_rag` (`backend/rag_agent.py` lines 128-215), paired
with the ordered list of external calls it performs. Control flow from the
source: retrieval (embedding, then vector query) runs unconditionally first;
an `LLMError` from the generation chat call yields the error dictionary; a
parse success yields the success dictionary; otherwise one repair chat call
is made and its text re-parsed. In the double-failure branch the source
builds `f"JSON failed twice: {e1} | Repair failed: {e2}"` (line 210), but
`e1` was the `except Exception as e1` variable of step 4, which Python
unbinds when that handler exits (PEP 3110); evaluating the f-string therefore
raises `NameError` for `e1`, no handler catches it, and the branch raises
instead of returning the `parseFailure` dictionary. -/
def generate_testcases_rag (env : RagEnv) (user_query : String) (top_k : Nat)
    (kb_id : Option String) (doc_roles : Option (List String)) :
    Except PyExn RagOutcome × List ExtCall :=
  let retrievalCalls : List ExtCall :=
    [ExtCall.embedText user_query,
     ExtCall.vectorQuery top_k (buildWhere kb_id doc_roles)]
  match env.genResp with
  | Except.error e =>
    (Except.ok (RagOutcome.llmError ("LLM Error: " ++ e)),
     retrievalCalls ++ [ExtCall.chatGenerate])
  | Except.ok raw_output =>
    match cleanAndParseJson raw_output with
    | Except.ok parsed =>
      (Except.ok (RagOutcome.success parsed raw_output),
       retrievalCalls ++ [ExtCall.chatGenerate])
    | Except.error _e1 =>
      match env.repairResp with
      | Except.ok repaired_text =>
        match cleanAndParseJson repaired_text with
        | Except.ok parsed_repaired =>
          (Except.ok
            (RagOutcome.repairedSuccess parsed_repaired raw_output repaired_text),
           retrievalCalls ++ [ExtCall.chatGenerate, ExtCall.chatRepair])
        | Except.error _e2 =>
          (Except.error (PyExn.nameError "e1"),
           retrievalCalls ++ [ExtCall.chatGenerate, ExtCall.chatRepair])
      | Except.error _e2 =>
        (Except.error (PyExn.nameError "e1"),
         retrievalCalls ++ [ExtCall.chatGenerate, ExtCall.chatRepair])

/-- The `/agent/testcases` endpoint (`backend/app.py` lines 156-169): it
performs no validation of the request's `kb_id` against the stored knowledge
bases or documents — the id is passed straight to `generate_testcases_rag`
with `doc_roles = ["main", "support"]`. The stored document rows are a
parameter only to exhibit that they are never consulted. -/
def generate_testcases_endpoint (env : RagEnv) (_db : List DocRow)
    (kb_id query : String) (top_k : Nat) :
    Except PyExn RagOutcome × List ExtCall :=
  generate_testcases_rag env query top_k (some kb_id) (some ["main", "support"])

/-- Python `pat in s` for strings: substring containment. -/
def containsSubstr (pat : List Char) : List Char → Bool
  | [] => pat.isEmpty
  | c :: rest => pat.isPrefixOf (c :: rest) || containsSubstr pat rest

/-- `clean_code` (`backend/selenium_generator.py` lines 80-82):
`raw.replace("```python", "").replace("```", "").strip()`. -/
def clean_code (raw : String) : String :=
  String.mk (pyStrip (strReplace (strReplace raw.toList
    "```python".toList "".toList) "```".toList "".toList))

/-- Environment abstracting the two model calls `generate_selenium_script`
can issue (`Except.error` models a raised exception: an `LLMError` from the
first call, any exception from the repair call). -/
structure ScriptEnv where
  firstResp : Except String String
  repairResp : Except String String

/-- `generate_selenium_script` (`backend/selenium_generator.py`
lines 112-148), paired with its ordered chat calls: an `LLMError` from the
first call returns the `# LLM Error:` placeholder; otherwise the reply is
fence-stripped and returned as-is when it contains `def run_test`; otherwise
exactly one repair call is made and its fence-stripped reply is returned
regardless of re-validation; a raising repair call returns the failure
placeholder prefixing the original cleaned code. -/
def generate_selenium_script (env : ScriptEnv) : String × List ExtCall :=
  match env.firstResp with
  | Except.error e => ("# LLM Error: " ++ e, [ExtCall.chatScript])
  | Except.ok raw =>
    let cleaned := clean_code raw
    if containsSubstr "def run_test".toList cleaned.toList then
      (cleaned, [ExtCall.chatScript])
    else
      match env.repairResp with
      | Except.ok repaired =>
        (clean_code repaired, [ExtCall.chatScript, ExtCall.chatScriptRepair])
      | Except.error _ =>
        ("# Failed to generate valid code.\n" ++ cleaned,
         [ExtCall.chatScript, ExtCall.chatScriptRepair])

/-- The SQLAlchemy lookup of `/agent/generate_script` (`backend/app.py`
lines 176-184): the first stored document with this knowledge-base id and
filename that is flagged HTML. -/
def findScriptDoc (db : List DocRow) (kb_id filename : String) : Option DocRow :=
  db.find? (fun d => d.kb_id == kb_id && d.filename == filename && d.is_html)

/-- The `/agent/generate_script` endpoint (`backend/app.py` lines 174-194),
paired with its external calls: when the lookup fails it raises
`HTTPException(400)` with the detail text (modelled as `Except.error`) before
`generate_selenium_script` — and hence before any model call — is reached. -/
def generate_script_endpoint (env : ScriptEnv) (db : List DocRow)
    (kb_id html_filename : String) : Except String String × List ExtCall :=
  match findScriptDoc db kb_id html_filename with
  | none =>
    (Except.error ("HTML file '" ++ html_filename ++ "' not found for kb_id='"
      ++ kb_id ++ "'. Make sure you uploaded it in this knowledge base."), [])
  | some _doc =>
    let r := generate_selenium_script env
    (Except.ok r.1, r.2)

/-- C4 (code bug): when the generation reply fails JSON extraction and the
repair reply also fails it, the engine does not return the failure dictionary
of `backend/rag_agent.py` lines 207-215: evaluating `{e1}` in the f-string on
line 210 raises `NameError` because Python unbound `e1` when step 4's
`except` handler exited (PEP 3110), and the exception escapes
`generate_testcases_rag`. (The intended dictionary would also have dropped
the repair-pass text: lines 207-215 carry `raw_llm_output` only.) -/
theorem C4_double_failure_raises :
    (generate_testcases_rag ⟨Except.ok "I cannot produce JSON for that.",
        Except.ok "Sorry, still no JSON."⟩ "make tests" 5 (some "kb1")
        (some ["main", "support"])).1 =
      Except.error (PyExn.nameError "e1") := rfl

/-- C7 counterexample: with no stored documents at all, a test-case
generation request for an unresolvable knowledge-base id is not rejected: the
flow performs the embedding call, the vector-store query and the model call,
and returns a normal outcome. -/
theorem C7_counterexample :
    (generate_testcases_endpoint ⟨Except.ok "[]", Except.ok "[]"⟩ []
        "missing-kb" "make tests" 5).2 =
      [ExtCall.embedText "make tests",
       ExtCall.vectorQuery 5
         (buildWhere (some "missing-kb") (some ["main", "support"])),
       ExtCall.chatGenerate]
    ∧ (generate_testcases_endpoint ⟨Except.ok "[]", Except.ok "[]"⟩ []
        "missing-kb" "make tests" 5).1 =
      Except.ok (RagOutcome.success (PyVal.list []) "[]") :=
  ⟨rfl, rfl⟩

/-- C7 (amended): only script generation validates its scope. A
`/agent/generate_script` request whose knowledge-base id and filename do not
resolve to a stored HTML document is rejected synchronously with zero
external calls; test-case generation performs no resolution check and always
begins with the embedding and vector-store calls, whatever knowledge-base id
the request carries. -/
theorem C7_scope_check_amended (env : ScriptEnv) (db : List DocRow)
    (kb_id html_filename : String)
    (h : findScriptDoc db kb_id html_filename = none) :
    ((generate_script_endpoint env db kb_id html_filename).1 =
        Except.error ("HTML file '" ++ html_filename ++ "' not found for kb_id='"
          ++ kb_id ++ "'. Make sure you uploaded it in this knowledge base.")
      ∧ (generate_script_endpoint env db kb_id html_filename).2 = [])
    ∧ ∀ (env' : RagEnv) (db' : List DocRow) (kb q : String) (k : Nat),
        ∃ rest, (generate_testcases_endpoint env' db' kb q k).2 =
          ExtCall.embedText q :: ExtCall.vectorQuery k
            (buildWhere (some kb) (some ["main", "support"])) :: rest := by
  constructor
  · constructor
    · simp [generate_script_endpoint, h]
    · simp [generate_script_endpoint, h]
  · intro env' db' kb q k
    cases hg : env'.genResp with
    | error e =>
      exact ⟨[ExtCall.chatGenerate],
        by simp [generate_testcases_endpoint, generate_testcases_rag, hg]⟩
    | ok raw =>
      cases hp : cleanAndParseJson raw with
      | ok v =>
        exact ⟨[ExtCall.chatGenerate],
          by simp [generate_testcases_endpoint, generate_testcases_rag, hg, hp]⟩
      | error e1 =>
        cases hr : env'.repairResp with
        | ok rep =>
          cases hp2 : cleanAndParseJson rep with
          | ok v2 =>
            exact ⟨[ExtCall.chatGenerate, ExtCall.chatRepair],
              by simp [generate_testcases_endpoint, generate_testcases_rag,
                hg, hp, hr, hp2]⟩
          | error e2 =>
            exact ⟨[ExtCall.chatGenerate, ExtCall.chatRepair],
              by simp [generate_testcases_endpoint, generate_testcases_rag,
                hg, hp, hr, hp2]⟩
        | error e2 =>
          exact ⟨[ExtCall.chatGenerate, ExtCall.chatRepair],
            by simp [generate_testcases_endpoint, generate_testcases_rag,
              hg, hp, hr]⟩

/-- Witness for `C7_scope_check_amended`: an empty document store rejects a
script request with no external call made. -/
theorem C7_scope_check_amended_witness :
    (generate_script_endpoint ⟨Except.ok "x", Except.ok "y"⟩ []
        "kb" "a.html").1 =
      Except.error ("HTML file 'a.html' not found for kb_id='kb'. "
        ++ "Make sure you uploaded it in this knowledge base.")
    ∧ (generate_script_endpoint ⟨Except.ok "x", Except.ok "y"⟩ []
        "kb" "a.html").2 = [] := by
  have h := (C7_scope_check_amended ⟨Except.ok "x", Except.ok "y"⟩ []
    "kb" "a.html" rfl).1
  exact ⟨by simpa using h.1, h.2⟩

/-- C8: script generation makes exactly one repair attempt. With a first
reply whose fence-stripped code lacks `def run_test`, exactly one repair call
is issued and its fence-stripped reply is returned regardless of whether the
entry-point check now passes; a raising repair call yields the marked failure
placeholder together with the original cleaned code instead of an exception.
A first reply containing the entry point, or a failing first call, issues no
repair call. -/
theorem C8_single_repair (env : ScriptEnv) :
    (∀ raw, env.firstResp = Except.ok raw →
      (containsSubstr "def run_test".toList (clean_code raw).toList = true →
        generate_selenium_script env = (clean_code raw, [ExtCall.chatScript]))
      ∧ (containsSubstr "def run_test".toList (clean_code raw).toList = false →
          ((generate_selenium_script env).2.countP
              (fun c => match c with
                | ExtCall.chatScriptRepair => true
                | _ => false) = 1
            ∧ (∀ rep, env.repairResp = Except.ok rep →
                (generate_selenium_script env).1 = clean_code rep)
            ∧ (∀ err, env.repairResp = Except.error err →
                (generate_selenium_script env).1 =
                  "# Failed to generate valid code.\n" ++ clean_code raw))))
    ∧ (∀ err, env.firstResp = Except.error err →
        generate_selenium_script env =
          ("# LLM Error: " ++ err, [ExtCall.chatScript])) := by
  constructor
  · intro raw hraw
    constructor
    · intro hc
      simp at hc
      simp [generate_selenium_script, hraw, hc]
    · intro hc
      simp at hc
      refine ⟨?_, ?_, ?_⟩
      · cases hr : env.repairResp <;>
          simp [generate_selenium_script, hraw, hc, hr, List.countP_cons,
            List.countP_nil]
      · intro rep hrep
        simp [generate_selenium_script, hraw, hc, hrep]
      · intro err herr
        simp [generate_selenium_script, hraw, hc, herr]
  · intro err herr
    simp [generate_selenium_script, herr]

/-- Witness for `C8_single_repair`: a first reply without the entry point and
a raising repair call. -/
theorem C8_single_repair_witness :
    (generate_selenium_script ⟨Except.ok "print(1)", Except.error "down"⟩).1 =
      "# Failed to generate valid code.\n" ++ clean_code "print(1)"
    ∧ (generate_selenium_script
          ⟨Except.ok "print(1)", Except.error "down"⟩).2.countP
        (fun c => match c with
          | ExtCall.chatScriptRepair => true
          | _ => false) = 1 := by
  have h := (C8_single_repair ⟨Except.ok "print(1)", Except.error "down"⟩).1
    "print(1)" rfl
  have hc : containsSubstr "def run_test".toList
      (clean_code "print(1)").toList = false := by decide
  obtain ⟨-, h2⟩ := h
  obtain ⟨hcount, -, herr⟩ := h2 hc
  exact ⟨herr "down" rfl, hcount⟩

/-- Is `b` a UTF-8 continuation byte (`0x80`-`0xBF`)? -/
def isCont (b : Nat) : Bool := 128 ≤ b && b ≤ 191

/-- CPython's UTF-8 decoder with `errors="ignore"`: well-formed sequences
decode to their code point; at an ill-formed position the decoder drops the
maximal subpart (the lead byte plus any valid continuation prefix) and
resumes at the offending byte; a truncated final sequence is dropped. Fuel:
each step consumes at least one byte, so `length + 1` suffices. -/
def utf8DecodeIgnore : Nat → List Nat → List Char
  | 0, _ => []
  | _fuel + 1, [] => []
  | fuel + 1, b :: bs =>
    if b < 128 then Char.ofNat b :: utf8DecodeIgnore fuel bs
    else if 194 ≤ b && b ≤ 223 then
      match bs with
      | b1 :: bs1 =>
        if isCont b1 then
          Char.ofNat ((b - 192) * 64 + (b1 - 128)) :: utf8DecodeIgnore fuel bs1
        else utf8DecodeIgnore fuel bs
      | [] => []
    else if 224 ≤ b && b ≤ 239 then
      match bs with
      | b1 :: bs1 =>
        if (if b = 224 then 160 else 128) ≤ b1 &&
            b1 ≤ (if b = 237 then 159 else 191) then
          match bs1 with
          | b2 :: bs2 =>
            if isCont b2 then
              Char.ofNat (((b - 224) * 64 + (b1 - 128)) * 64 + (b2 - 128)) ::
                utf8DecodeIgnore fuel bs2
            else utf8DecodeIgnore fuel bs1
          | [] => []
        else utf8DecodeIgnore fuel bs
      | [] => []
    else if 240 ≤ b && b ≤ 244 then
      match bs with
      | b1 :: bs1 =>
        if (if b = 240 then 144 else 128) ≤ b1 &&
            b1 ≤ (if b = 244 then 143 else 191) then
          match bs1 with
          | b2 :: bs2 =>
            if isCont b2 then
              match bs2 with
              | b3 :: bs3 =>
                if isCont b3 then
                  Char.ofNat ((((b - 240) * 64 + (b1 - 128)) * 64 + (b2 - 128))
                      * 64 + (b3 - 128)) :: utf8DecodeIgnore fuel bs3
                else utf8DecodeIgnore fuel bs2
              | [] => []
            else utf8DecodeIgnore fuel bs1
          | [] => []
        else utf8DecodeIgnore fuel bs
      | [] => []
    else utf8DecodeIgnore fuel bs

/-- `data.decode("utf-8", errors="ignore")`. -/
def decodeUtf8Ignore (bs : List Nat) : String :=
  String.mk (utf8DecodeIgnore (bs.length + 1) bs)

/-- `parse_txt` (`backend/parsers.py` lines 21-23): UTF-8 decode with invalid
byte sequences dropped. The ingestion path always passes the uploaded bytes,
which is the branch modelled throughout. -/
def parse_txt (data : List Nat) : String := decodeUtf8Ignore data

/-- `parse_md` (`backend/parsers.py` lines 26-27): same as `parse_txt`. -/
def parse_md (data : List Nat) : String := parse_txt data

/-- Join character-list segments with a separator. -/
def joinSep (sep : List Char) : List (List Char) → List Char
  | [] => []
  | [x] => x
  | x :: y :: rest => x ++ sep ++ joinSep sep (y :: rest)

/-- `json.dumps` string quoting; the escapes exercised by the claims are the
quote, backslash and the common ASCII control characters (the `\uXXXX` form
for other code points is not modelled — no claim serializes them). -/
def dumpsString (s : List Char) : List Char :=
  '"' :: (s.foldr (fun c acc =>
    if c = '"' then '\\' :: '"' :: acc
    else if c = '\\' then '\\' :: '\\' :: acc
    else if c = '\n' then '\\' :: 'n' :: acc
    else if c = '\t' then '\\' :: 't' :: acc
    else if c = '\r' then '\\' :: 'r' :: acc
    else c :: acc) ['"'])

/-- `json.dumps(obj, indent=2)` rendering at nesting level `lvl`: scalars
inline, nonempty containers broken over lines with two more spaces per level
and `", "`-free `",\n"` item separators, exactly as the canonicalization in
`parse_json` produces. Keys coming from `json.loads` are always strings; the
other key constructors are unreachable on that path and render as their
quoted-string stand-in. Fuel bounds the value depth, which is below the
length of the text the value was parsed from. -/
def dumpsVal : Nat → Nat → PyVal → List Char
  | 0, _, _ => []
  | _fuel + 1, _lvl, PyVal.none => "null".toList
  | _fuel + 1, _lvl, PyVal.bool true => "true".toList
  | _fuel + 1, _lvl, PyVal.bool false => "false".toList
  | _fuel + 1, _lvl, PyVal.int n => (toString n).toList
  | _fuel + 1, _lvl, PyVal.floatLit lx => lx.toList
  | _fuel + 1, _lvl, PyVal.str s => dumpsString s.toList
  | fuel + 1, lvl, PyVal.list xs =>
    match xs with
    | [] => "[]".toList
    | _ =>
      let indent := List.replicate (2 * (lvl + 1)) ' '
      let items := xs.map (fun x => indent ++ dumpsVal fuel (lvl + 1) x)
      '[' :: '\n' :: (joinSep (",\n".toList) items ++
        '\n' :: (List.replicate (2 * lvl) ' ' ++ [']']))
  | fuel + 1, lvl, PyVal.dict kvs =>
    match kvs with
    | [] => [lbrace, rbrace]
    | _ =>
      let indent := List.replicate (2 * (lvl + 1)) ' '
      let items := kvs.map (fun kv =>
        indent ++ ((match kv.1 with
          | PyVal.str s => dumpsString s.toList
          | _ => dumpsString []) ++
          (':' :: ' ' :: dumpsVal fuel (lvl + 1) kv.2)))
      lbrace :: '\n' :: (joinSep (",\n".toList) items ++
        '\n' :: (List.replicate (2 * lvl) ' ' ++ [rbrace]))

/-- `parse_json` (`backend/parsers.py` lines 54-60): decode the bytes with
errors ignored, `json.loads` the text, re-serialize with stable 2-space
indentation; any failure returns the empty string rather than raising. -/
def parse_json (data : List Nat) : String :=
  match jsonLoads (decodeUtf8Ignore data).toList with
  | Except.ok obj => String.mk (dumpsVal ((decodeUtf8Ignore data).toList.length + 1) 0 obj)
  | Except.error _ => ""

/-- Markup scanner for the `parse_html` model: characters between `<` and the
next `>` are markup, the rest form text segments. -/
def htmlScan : List Char → Bool → List Char → List (List Char)
  | [], _, acc => [acc.reverse]
  | c :: rest, inTag, acc =>
    if inTag then
      if c = '>' then htmlScan rest false acc else htmlScan rest true acc
    else if c = '<' then acc.reverse :: htmlScan rest true []
    else htmlScan rest false (c :: acc)

/-- Model of `BeautifulSoup(data, "html.parser").get_text(separator="\n",
strip=True)` (`backend/parsers.py` lines 44-51): elide markup, strip each
text segment, drop empty segments, join the rest with newlines. Entity
decoding and bs4's recovery on malformed markup are not modelled (no claim
depends on them); like the library call, the function is total — bs4 does not
raise on malformed markup. -/
def parse_html (data : List Nat) : String :=
  let segs := htmlScan (decodeUtf8Ignore data).toList false []
  String.mk (joinSep ['\n'] ((segs.map pyStrip).filter (fun s => !s.isEmpty)))

/-- Modelled from the spec: the page-text extraction inside `parse_pdf`
(`backend/parsers.py` lines 30-41) is performed by the external PyMuPDF
library (`fitz.open` plus per-page `get_text`), which is not part of this
repository's sources. Spec §4.1: ".pdf → extract text from every page in
document order and join with newline separators". The extractor is modelled
as a total page-list function of the bytes — a single page holding the
decoded stream, immaterial to the claims, none of which exercises PDF
content. -/
def pdfExtractPages (data : List Nat) : List String :=
  [decodeUtf8Ignore data]

/-- `parse_pdf` (`backend/parsers.py` lines 30-41): `"\n".join` of the page
texts in document order. -/
def parse_pdf (data : List Nat) : String :=
  String.intercalate "\n" (pdfExtractPages data)

/-- `parse_any` (`backend/parsers.py` lines 63-83): dispatch on
`Path(path).suffix.lower()`; any unrecognized suffix falls back to the
`.txt` path. The ingestion caller always supplies the uploaded bytes. -/
def parse_any (path : String) (raw_bytes : List Nat) : String :=
  let suffix := suffixLower path
  if suffix = ".txt" then parse_txt raw_bytes
  else if suffix = ".md" || suffix = ".markdown" then parse_md raw_bytes
  else if suffix = ".pdf" then parse_pdf raw_bytes
  else if suffix = ".html" || suffix = ".htm" then parse_html raw_bytes
  else if suffix = ".json" then parse_json raw_bytes
  else parse_txt raw_bytes

/-- UTF-8 encoding of one character. -/
def encodeUtf8Char (c : Char) : List Nat :=
  let n := c.toNat
  if n < 128 then [n]
  else if n < 2048 then [192 + n / 64, 128 + n % 64]
  else if n < 65536 then [224 + n / 4096, 128 + (n / 64) % 64, 128 + n % 64]
  else [240 + n / 262144, 128 + (n / 4096) % 64, 128 + (n / 64) % 64,
    128 + n % 64]

/-- UTF-8 encoding of a string: the byte content of an uploaded file in the
concrete instances below. -/
def strBytes (s : String) : List Nat :=
  (s.toList.map encodeUtf8Char).flatten

set_option maxRecDepth 40000 in
/-- C9: the document parser dispatches on the case-insensitive filename
suffix (`doc.JSON` takes the JSON path); a `.json` file whose content fails
JSON parsing yields empty text rather than raising; a successful parse is
re-serialized with stable 2-space indentation; any unrecognized suffix falls
back to the `.txt` path, whose UTF-8 decode drops invalid byte sequences.
In the embedding every parse function is a total `String`-valued function
with no exception channel, matching the source's degradation to partial or
empty text for malformed content of a known type. -/
theorem C9_parser_dispatch :
    (∀ bs, parse_any "doc.JSON" bs = parse_json bs)
    ∧ (∀ bs, (jsonLoads (decodeUtf8Ignore bs).toList).isOk = false →
        parse_json bs = "")
    ∧ parse_json (strBytes "\x7b\"a\": [1, 2]\x7d") =
        "\x7b\n  \"a\": [\n    1,\n    2\n  ]\n\x7d"
    ∧ (∀ bs, parse_any "weird.xyz" bs = parse_txt bs)
    ∧ parse_txt [104, 105, 255, 33] = "hi!" := by
  refine ⟨fun bs => rfl, ?_, rfl, fun bs => rfl, rfl⟩
  intro bs h
  unfold parse_json
  cases hj : jsonLoads (decodeUtf8Ignore bs).toList with
  | ok v =>
    rw [hj] at h
    simp [Except.isOk, Except.toBool] at h
  | error e => rfl

/-- Witness for `C9_parser_dispatch`: bytes that are not JSON parse to the
empty string on the `.json` path. -/
theorem C9_parser_dispatch_witness :
    parse_json (strBytes "not json at all") = "" :=
  C9_parser_dispatch.2.1 (strBytes "not json at all") rfl

end InsightQA
